import Mathlib

/-!
Verification of the `MultiplyMerge` layer from
`src/mlpack/methods/ann/layer/multiply_merge_impl.hpp`.

The layer holds an ordered collection (`network`) of polymorphic branches,
three boolean flags (`model`, `run`, `ownsLayer`) and an opaque weight
aggregate.  Forward multiplies the branches' outputs elementwise, Backward
sums their deltas, Gradient fans the error out to every branch.

Tensors are embedded as flat lists of integers (`List Int`); the elementwise
operations `%=` (Schur product) and `+=` of Armadillo become `List.zipWith`.
A branch is a record carrying its computation functions together with its
mutable storage (output parameter, delta, internal gradient state and a
destruction counter used to observe the delete visitor).
-/

namespace MlpackMultiplyMerge

/-- Tensors: flat element lists, integer elements. -/
abbrev Tensor := List Int

/-- Armadillo `output %= other`: elementwise multiplication. -/
def elemMul (a b : Tensor) : Tensor := List.zipWith (· * ·) a b

/-- Armadillo `g += other`: elementwise addition. -/
def elemAdd (a b : Tensor) : Tensor := List.zipWith (· + ·) a b

/-- A polymorphic branch of the merge layer: its computation functions
(`Forward`, `Backward`, `Gradient` of the branch capability contract) plus its
mutable storage: the stored output parameter, the stored delta, the internal
weight-gradient state and a counter of how many times the delete visitor has
destroyed it. -/
structure Branch where
  forwardFn : Tensor → Tensor
  backwardFn : Tensor → Tensor → Tensor
  gradientFn : Tensor → Tensor → Tensor → Tensor
  outputParameter : Tensor
  delta : Tensor
  gradState : Tensor
  destroyCount : Nat

/-- `ForwardVisitor(input, outputParameter(network[i]))` applied to
`network[i]`: the branch computes its output from `input` and writes it into
its own output parameter storage. -/
def Branch.forwardStep (b : Branch) (input : Tensor) : Branch :=
  { b with outputParameter := b.forwardFn input }

/-- `BackwardVisitor(outputParameter(network[i]), gy, deltaVisitor(network[i]))`
applied to `network[i]`: the branch computes its delta from its stored output
parameter and the upstream gradient `gy`, writing into its delta storage. -/
def Branch.backwardStep (b : Branch) (gy : Tensor) : Branch :=
  { b with delta := b.backwardFn b.outputParameter gy }

/-- `GradientVisitor(input, error)` applied to `network[i]`: the branch
accumulates its internal weight-gradient state from `input` and `error`. -/
def Branch.gradientStep (b : Branch) (input err : Tensor) : Branch :=
  { b with gradState := b.gradientFn input err b.gradState }

/-- The delete visitor destroying one branch, observed by a counter. -/
def Branch.destroy (b : Branch) : Branch :=
  { b with destroyCount := b.destroyCount + 1 }

/-- The state of a `MultiplyMerge` layer: the three boolean flags, the ordered
branch collection `network` and the opaque `weights` aggregate. -/
structure MultiplyMerge where
  model : Bool
  run : Bool
  ownsLayer : Bool
  network : List Branch
  weights : Tensor

/-- The error raised when an operation is invoked in an ill-formed
configuration (empty branch collection at a point where the C++ code would
read `network.front()` of an empty vector). -/
inductive MergeError where
  | InvalidConfiguration
deriving DecidableEq

/-- `MultiplyMerge(model, run)`: sets `ownsLayer = !model`; the branch
collection starts empty and the weight aggregate default-constructs empty. -/
def MultiplyMerge.construct (model runFlag : Bool) : MultiplyMerge :=
  { model := model, run := runFlag, ownsLayer := !model, network := [], weights := [] }

/-- The branch collection as it stands after Forward's per-branch loop: when
`run` is true every branch's Forward has been invoked on `input`; when `run`
is false the collection is untouched. -/
def MultiplyMerge.forwardNetwork (m : MultiplyMerge) (input : Tensor) : List Branch :=
  if m.run then m.network.map (fun b => b.forwardStep input) else m.network

/-- `MultiplyMerge::Forward(input, output)`: if `run`, drive every branch's
Forward on `input`; then combine `output := network.front().OutputParameter()`
folded with `output %= network[i].OutputParameter()` for `i = 1 ..`.  Reading
`network.front()` of an empty collection is undefined behaviour in the C++
code; following the specification's fail-fast conversion it is embedded as an
`InvalidConfiguration` error. -/
def MultiplyMerge.Forward (m : MultiplyMerge) (input : Tensor) :
    Except MergeError (MultiplyMerge × Tensor) :=
  match m.forwardNetwork input with
  | [] => .error .InvalidConfiguration
  | b :: rest =>
      .ok ({ m with network := b :: rest },
           rest.foldl (fun acc br => elemMul acc br.outputParameter) b.outputParameter)

/-- The branch collection after Backward's per-branch loop: every branch's
Backward has been invoked on its stored output parameter and `gy`. -/
def MultiplyMerge.backwardNetwork (m : MultiplyMerge) (gy : Tensor) : List Branch :=
  m.network.map (fun b => b.backwardStep gy)

/-- `MultiplyMerge::Backward(input, gy, g)`: the `input` argument is unnamed
and unused in the source.  If `run`, drive every branch's Backward on its
stored output parameter and `gy`, then `g := delta(network[0])` accumulated
with `g += delta(network[i])` for `i = 1 ..` (reading `network[0]` of an
empty collection is undefined behaviour, embedded as the error branch as in
Forward); otherwise `g = gy` and the branches are untouched. -/
def MultiplyMerge.Backward (m : MultiplyMerge) (_input gy : Tensor) :
    Except MergeError (MultiplyMerge × Tensor) :=
  if m.run then
    match m.backwardNetwork gy with
    | [] => .error .InvalidConfiguration
    | b :: rest =>
        .ok ({ m with network := b :: rest },
             rest.foldl (fun acc br => elemAdd acc br.delta) b.delta)
  else
    .ok (m, gy)

/-- `MultiplyMerge::Gradient(input, error, gradient)`: the `gradient` output
argument is unnamed and never written.  If `run`, drive every branch's
Gradient on `(input, error)`; otherwise do nothing.  The returned pair is the
updated layer state and the (untouched) gradient output argument. -/
def MultiplyMerge.Gradient (m : MultiplyMerge) (input err gradient : Tensor) :
    MultiplyMerge × Tensor :=
  if m.run then
    ({ m with network := m.network.map (fun b => b.gradientStep input err) }, gradient)
  else
    (m, gradient)

/-- `MultiplyMerge::~MultiplyMerge()`: if `ownsLayer`, apply the delete
visitor to every branch of the collection; otherwise touch none.  The result
is the branch collection as observed after destruction. -/
def MultiplyMerge.destruct (m : MultiplyMerge) : List Branch :=
  if m.ownsLayer then m.network.map Branch.destroy else m.network

/-- The copy constructor: copies `model`, `run`, `ownsLayer`, the branch
collection handles and the weight aggregate verbatim. -/
def MultiplyMerge.copyConstruct (layer : MultiplyMerge) : MultiplyMerge :=
  { model := layer.model, run := layer.run, ownsLayer := layer.ownsLayer,
    network := layer.network, weights := layer.weights }

/-- Copy assignment `operator=(const MultiplyMerge&)`: `isSelf` models the
`this != &layer` address check; on self-assignment nothing changes, otherwise
all five members are copied from `layer`. -/
def MultiplyMerge.copyAssign (tgt layer : MultiplyMerge) (isSelf : Bool) : MultiplyMerge :=
  if isSelf then tgt
  else
    { tgt with
      model := layer.model
      run := layer.run
      ownsLayer := layer.ownsLayer
      network := layer.network
      weights := layer.weights }

/-- Move assignment `operator=(MultiplyMerge&&)`: same member-wise transfer
guarded by the `this != &layer` address check. -/
def MultiplyMerge.moveAssign (tgt layer : MultiplyMerge) (isSelf : Bool) : MultiplyMerge :=
  if isSelf then tgt
  else
    { tgt with
      model := layer.model
      run := layer.run
      ownsLayer := layer.ownsLayer
      network := layer.network
      weights := layer.weights }

/-- The archive contents written by `serialize` on save: the branch collection
as an ordered tagged sequence, followed by the three boolean flags.  The
weight aggregate is not serialized by this layer. -/
structure MergeArchive where
  network : List Branch
  model : Bool
  run : Bool
  ownsLayer : Bool

/-- `serialize` in the saving direction. -/
def MultiplyMerge.save (m : MultiplyMerge) : MergeArchive :=
  { network := m.network, model := m.model, run := m.run, ownsLayer := m.ownsLayer }

/-- `serialize` in the loading direction applied to a target layer `t`: the
target's current branches are cleared first (`network.clear()`), then the
archived sequence and the three flags are read in. -/
def MultiplyMerge.load (t : MultiplyMerge) (a : MergeArchive) : MultiplyMerge :=
  { t with network := a.network, model := a.model, run := a.run, ownsLayer := a.ownsLayer }

/-- The output component of Forward, ignoring the updated layer state. -/
def MultiplyMerge.forwardOutput (m : MultiplyMerge) (input : Tensor) :
    Except MergeError Tensor :=
  (m.Forward input).map Prod.snd

/-- The specification's combine rule, stated in its own words: the left fold
of elementwise multiplication over a list of output tensors, seeded by the
first one.  Used to compare Forward against the spec. -/
def specFoldProduct : List Tensor → Tensor
  | [] => []
  | t :: ts => ts.foldl elemMul t

/-- The specification's delta accumulation rule, stated in its own words: the
left fold of elementwise addition over a list of delta tensors, seeded by the
first one. -/
def specFoldSum : List Tensor → Tensor
  | [] => []
  | t :: ts => ts.foldl elemAdd t

/-- A concrete branch doubling its input, used to exercise the theorems. -/
def wBranchA : Branch :=
  { forwardFn := fun t => t.map (· * 2)
    backwardFn := fun _ gy => gy
    gradientFn := fun _ _ g => g
    outputParameter := [7, 7]
    delta := [0, 0]
    gradState := []
    destroyCount := 0 }

/-- A concrete branch incrementing its input, used to exercise the theorems. -/
def wBranchB : Branch :=
  { forwardFn := fun t => t.map (· + 1)
    backwardFn := fun o gy => elemAdd o gy
    gradientFn := fun i e _ => elemAdd i e
    outputParameter := [9, 9]
    delta := [0, 0]
    gradState := []
    destroyCount := 0 }

/-- A concrete two-branch merge layer with `run = true`. -/
def wMergeRun : MultiplyMerge :=
  { model := false, run := true, ownsLayer := true
    network := [wBranchA, wBranchB], weights := [] }

/-- A concrete two-branch merge layer with `run = false`. -/
def wMergeNoRun : MultiplyMerge :=
  { model := true, run := false, ownsLayer := false
    network := [wBranchA, wBranchB], weights := [] }

theorem forwardNetwork_nil_iff (m : MultiplyMerge) (input : Tensor) :
    m.forwardNetwork input = [] ↔ m.network = [] := by
  unfold MultiplyMerge.forwardNetwork
  split <;> simp

/-- The Forward output depends only on the `run` flag and the branch
collection, not on the other members of the layer state. -/
theorem forwardOutput_congr (m1 m2 : MultiplyMerge) (input : Tensor)
    (hrun : m1.run = m2.run) (hnet : m1.network = m2.network) :
    m1.forwardOutput input = m2.forwardOutput input := by
  have hfn : m1.forwardNetwork input = m2.forwardNetwork input := by
    unfold MultiplyMerge.forwardNetwork
    rw [hrun, hnet]
  unfold MultiplyMerge.forwardOutput MultiplyMerge.Forward
  rw [hfn]
  cases hn : m2.forwardNetwork input <;> rfl

/-- Claim C1: for every non-empty branch collection, Forward's output is the
left fold of elementwise multiplication over the branches' output parameters
in collection order, seeded by the first branch's output; when `run` is true
the branches' Forward has been invoked first (`forwardNetwork` maps
`forwardStep` over the collection), and when `run` is false the held outputs
are combined as they stand (`forwardNetwork` is the untouched collection). -/
theorem multiply_merge_forward_combine (m : MultiplyMerge) (input : Tensor)
    (h : m.network ≠ []) :
    m.Forward input =
      .ok ({ m with network := m.forwardNetwork input },
           specFoldProduct ((m.forwardNetwork input).map Branch.outputParameter)) := by
  have h' : m.forwardNetwork input ≠ [] := fun hn =>
    h ((forwardNetwork_nil_iff m input).mp hn)
  unfold MultiplyMerge.Forward
  cases hn : m.forwardNetwork input with
  | nil => exact absurd hn h'
  | cons b rest => simp [specFoldProduct, List.foldl_map]

theorem multiply_merge_forward_combine_witness :
    wMergeRun.network ≠ [] ∧
    wMergeRun.Forward [1, 2] =
      .ok ({ wMergeRun with network := wMergeRun.forwardNetwork [1, 2] },
           specFoldProduct ((wMergeRun.forwardNetwork [1, 2]).map Branch.outputParameter)) :=
  ⟨List.cons_ne_nil _ _,
   multiply_merge_forward_combine wMergeRun [1, 2] (List.cons_ne_nil _ _)⟩

/-- Claim C2: with `run = true` and a non-empty branch collection, Backward
invokes each branch's Backward on its stored output parameter and `gy`
(`backwardNetwork` maps `backwardStep` over the collection) and sets `g` to
the left fold of elementwise addition over the branches' deltas — a plain
sum, not the multiplicative partial derivative; in particular for exactly two
branches the result is the elementwise sum of their two deltas. -/
theorem multiply_merge_backward_sum (m : MultiplyMerge) (input gy : Tensor)
    (b1 b2 : Branch) (hr : m.run = true) (h : m.network ≠ []) :
    m.Backward input gy =
      .ok ({ m with network := m.backwardNetwork gy },
           specFoldSum ((m.backwardNetwork gy).map Branch.delta)) ∧
    (m.network = [b1, b2] →
      specFoldSum ((m.backwardNetwork gy).map Branch.delta) =
        elemAdd (b1.backwardStep gy).delta (b2.backwardStep gy).delta) := by
  constructor
  · have h' : m.backwardNetwork gy ≠ [] := by
      unfold MultiplyMerge.backwardNetwork
      simpa using h
    unfold MultiplyMerge.Backward
    rw [hr]
    cases hn : m.backwardNetwork gy with
    | nil => exact absurd hn h'
    | cons b rest => simp [specFoldSum, List.foldl_map]
  · intro h2
    unfold MultiplyMerge.backwardNetwork
    rw [h2]
    rfl

theorem multiply_merge_backward_sum_witness :
    wMergeRun.run = true ∧ wMergeRun.network ≠ [] ∧
    (wMergeRun.Backward [0, 0] [1, 1] =
       .ok ({ wMergeRun with network := wMergeRun.backwardNetwork [1, 1] },
            specFoldSum ((wMergeRun.backwardNetwork [1, 1]).map Branch.delta)) ∧
     (wMergeRun.network = [wBranchA, wBranchB] →
       specFoldSum ((wMergeRun.backwardNetwork [1, 1]).map Branch.delta) =
         elemAdd (wBranchA.backwardStep [1, 1]).delta
                 (wBranchB.backwardStep [1, 1]).delta)) :=
  ⟨rfl, List.cons_ne_nil _ _,
   multiply_merge_backward_sum wMergeRun [0, 0] [1, 1] wBranchA wBranchB rfl
     (List.cons_ne_nil _ _)⟩

/-- Claim C3: with `run = false`, Backward is the identity pass-through
`g = gy` and the whole layer state — every branch's outputs, deltas, weights
included — is returned unchanged, whatever the branch collection holds. -/
theorem multiply_merge_backward_passthrough (m : MultiplyMerge) (input gy : Tensor)
    (hr : m.run = false) :
    m.Backward input gy = .ok (m, gy) := by
  unfold MultiplyMerge.Backward
  simp [hr]

theorem multiply_merge_backward_passthrough_witness :
    wMergeNoRun.run = false ∧
    wMergeNoRun.Backward [5, 5] [1, 2] = .ok (wMergeNoRun, [1, 2]) :=
  ⟨rfl, multiply_merge_backward_passthrough wMergeNoRun [5, 5] [1, 2] rfl⟩

/-- Claim C4: Forward fails with `InvalidConfiguration` exactly when the
branch collection is empty, for every layer state (both `run = true` and
`run = false`) and every input; under the non-empty precondition the error
branch is unreachable. -/
theorem multiply_merge_forward_empty_invalid (m : MultiplyMerge) (input : Tensor) :
    m.Forward input = .error .InvalidConfiguration ↔ m.network = [] := by
  rw [← forwardNetwork_nil_iff m input]
  unfold MultiplyMerge.Forward
  cases hn : m.forwardNetwork input with
  | nil => simp
  | cons b rest => simp

/-- Claim C5: destruction applies the delete visitor to each branch exactly
once when `ownsLayer` is true and to none when it is false — position by
position, the destruction counter grows by exactly one or by zero. -/
theorem multiply_merge_destruct_once (m : MultiplyMerge) (i : Nat)
    (h : i < m.network.length) :
    m.destruct.length = m.network.length ∧
    ∃ hd : i < m.destruct.length,
      (m.destruct.get ⟨i, hd⟩).destroyCount =
        (m.network.get ⟨i, h⟩).destroyCount + (if m.ownsLayer then 1 else 0) := by
  by_cases ho : m.ownsLayer
  · refine ⟨by simp [MultiplyMerge.destruct, ho], by simpa [MultiplyMerge.destruct, ho], ?_⟩
    simp [MultiplyMerge.destruct, ho, Branch.destroy]
  · refine ⟨by simp [MultiplyMerge.destruct, ho], by simpa [MultiplyMerge.destruct, ho], ?_⟩
    simp [MultiplyMerge.destruct, ho]

theorem multiply_merge_destruct_once_witness :
    wMergeRun.destruct.length = wMergeRun.network.length ∧
    ∃ hd : 0 < wMergeRun.destruct.length,
      (wMergeRun.destruct.get ⟨0, hd⟩).destroyCount =
        (wMergeRun.network.get ⟨0, by decide⟩).destroyCount +
          (if wMergeRun.ownsLayer then 1 else 0) :=
  multiply_merge_destruct_once wMergeRun 0 (by decide)

/-- Claim C6: serializing a layer and loading the archive into any target
layer yields the source's branch count and its `model`, `run` and `ownsLayer`
flags; the target's previously held branches are discarded (its collection
becomes exactly the archived one); and Forward on any input produces the same
output as the pre-serialization layer. -/
theorem multiply_merge_serialize_roundtrip (m t : MultiplyMerge) (input : Tensor) :
    (t.load m.save).network.length = m.network.length ∧
    (t.load m.save).model = m.model ∧
    (t.load m.save).run = m.run ∧
    (t.load m.save).ownsLayer = m.ownsLayer ∧
    (t.load m.save).network = m.save.network ∧
    (t.load m.save).forwardOutput input = m.forwardOutput input :=
  ⟨rfl, rfl, rfl, rfl, rfl, forwardOutput_congr _ _ input rfl rfl⟩

/-- Claim C7: constructing a layer from `(model, run)` gives
`ownsLayer = !model`, stores the two flags verbatim and starts with an empty
branch collection. -/
theorem multiply_merge_construct_state (model runFlag : Bool) :
    (MultiplyMerge.construct model runFlag).ownsLayer = !model ∧
    (MultiplyMerge.construct model runFlag).run = runFlag ∧
    (MultiplyMerge.construct model runFlag).model = model ∧
    (MultiplyMerge.construct model runFlag).network = [] :=
  ⟨rfl, rfl, rfl, rfl⟩

/-- Claim C8: Gradient never writes to its own gradient output argument and
never touches the flags or the weight aggregate; when `run` is true each
branch's Gradient is invoked in collection order, and when `run` is false the
branch collection is unchanged as well. -/
theorem multiply_merge_gradient_frame (m : MultiplyMerge) (input err gradient : Tensor) :
    (m.Gradient input err gradient).2 = gradient ∧
    (m.Gradient input err gradient).1.model = m.model ∧
    (m.Gradient input err gradient).1.run = m.run ∧
    (m.Gradient input err gradient).1.ownsLayer = m.ownsLayer ∧
    (m.Gradient input err gradient).1.weights = m.weights ∧
    (m.Gradient input err gradient).1.network =
      (if m.run then m.network.map (fun b => b.gradientStep input err) else m.network) := by
  by_cases hr : m.run <;> simp [MultiplyMerge.Gradient, hr]

/-- Claim C9: copy construction and the non-self branch of copy and move
assignment transfer all five members — `model`, `run`, `ownsLayer`, the
branch collection handles and the weight aggregate — verbatim from the
source layer, ownership mode included; the self-assignment guard makes
self copy- and move-assignment a no-op. -/
theorem multiply_merge_copy_semantics (a b : MultiplyMerge) :
    (a.copyConstruct.model = a.model ∧ a.copyConstruct.run = a.run ∧
     a.copyConstruct.ownsLayer = a.ownsLayer ∧ a.copyConstruct.network = a.network ∧
     a.copyConstruct.weights = a.weights) ∧
    b.copyAssign a false = a.copyConstruct ∧
    b.moveAssign a false = a.copyConstruct ∧
    a.copyAssign a true = a ∧
    a.moveAssign a true = a :=
  ⟨⟨rfl, rfl, rfl, rfl, rfl⟩, rfl, rfl, rfl, rfl⟩

/-- Claim C10: Backward ignores its first (input) argument entirely: for any
fixed layer state and upstream gradient, two calls with different input
tensors return the same combined delta and the same branch states. -/
theorem multiply_merge_backward_ignores_input (m : MultiplyMerge) (i1 i2 gy : Tensor) :
    m.Backward i1 gy = m.Backward i2 gy := rfl

end MlpackMultiplyMerge
